import Mathlib

/-!
Shallow embedding of the Statement_Prep repository's ledger-aggregation
pipeline and its configuration/query layers, with theorems checking the
natural-language specification's claims against the code.

Numeric cells are modelled as rationals (the Python code uses floats; every
concrete value appearing in the claims is exactly representable, and the
branching logic under scrutiny is sign/threshold logic that agrees on ℚ).
SQL NULLs are modelled as `Option`, SQL `GROUP BY` as grouping by a key
function over lists, and SQL `MIN` over TEXT as the lexicographic minimum of
the non-null values.
-/

namespace SP

/-- A calendar month, as SQLite's
`CAST(strftime('%Y',d) AS INTEGER)` / `CAST(strftime('%m',d) AS INTEGER)`
sees a `month_start` date. -/
structure Month where
  year : Int
  mon : Int
deriving DecidableEq, Repr, Inhabited

/-- `year * 12 + month`, the quantity the timeframe CASE expression in
`build_aggregate_table` computes on each side of its comparisons. -/
def Month.idx (m : Month) : Int := m.year * 12 + m.mon

/-- One enriched row of the `gl_raw` table (`gl_ingest.ensure_schema`
columns that the aggregation step reads).  `month_start` is `none` when the
"Mon YYYY" cell failed to parse at ingestion; enrichment fields are `none`
when the corresponding join found no match. -/
structure RawRecord where
  month_start : Option Month
  investor : Option String
  owner : Option String
  property_name : Option String
  acquired : Option String
  categorization : Option String
  gl_mapping_type : Option String
  cash_categorization : Option String
  cash_type_mapping : Option String
  debit : ℚ
  credit : ℚ
deriving DecidableEq, Repr, Inhabited

/-- One row of the `gl_agg` table (`ensure_agg_schema`). -/
structure AggRecord where
  month_start : Option Month
  investor : Option String
  owner : Option String
  property_name : Option String
  property : Option String
  acquired : Option String
  categorization : Option String
  gl_mapping_type : Option String
  value : ℚ
  cash_categorization : Option String
  cash_value : ℚ
  cash_type_mapping : Option String
  timeframe : Option String
deriving DecidableEq, Repr, Inhabited

/-- `WHERE COALESCE(cash_categorization, '') <> 'Mortgage'` (the non-mortgage
branch of the aggregation insert). -/
def nonMortgage (r : RawRecord) : Bool := (r.cash_categorization.getD "") ≠ "Mortgage"

/-- `WHERE cash_categorization = 'Mortgage'` (the two mortgage branches;
SQL equality is null-rejecting). -/
def isMortgage (r : RawRecord) : Bool := r.cash_categorization == some "Mortgage"

/-- Grouping key of the two mortgage branches: `GROUP BY month_start,
investor, owner, property_name, categorization, gl_mapping_type`. -/
structure MKey where
  month_start : Option Month
  investor : Option String
  owner : Option String
  property_name : Option String
  categorization : Option String
  gl_mapping_type : Option String
deriving DecidableEq, Repr, Inhabited

/-- Grouping key of the non-mortgage branch: the mortgage key plus
`cash_categorization`. -/
structure NMKey where
  base : MKey
  cash_categorization : Option String
deriving DecidableEq, Repr, Inhabited

/-- The non-mortgage grouping key of a raw row. -/
def nmKey (r : RawRecord) : NMKey :=
  ⟨⟨r.month_start, r.investor, r.owner, r.property_name, r.categorization,
    r.gl_mapping_type⟩, r.cash_categorization⟩

/-- The mortgage grouping key of a raw row. -/
def mKey (r : RawRecord) : MKey :=
  ⟨r.month_start, r.investor, r.owner, r.property_name, r.categorization,
    r.gl_mapping_type⟩

/-- The distinct grouping keys a SQL `GROUP BY key` produces over `rows`. -/
def groupKeys {α κ : Type} [DecidableEq κ] (key : α → κ) (rows : List α) : List κ :=
  (rows.map key).dedup

/-- The rows of the group with key `k`. -/
def groupRows {α κ : Type} [DecidableEq κ] (key : α → κ) (rows : List α) (k : κ) :
    List α :=
  rows.filter (fun r => decide (key r = k))

/-- `COALESCE(SUM(debit), 0.0)` over a group (the `debit` column is filled
with `0.0` for unparsable cells at ingestion, so no NULLs arise). -/
def sumDebit (rs : List RawRecord) : ℚ := (rs.map RawRecord.debit).sum

/-- `COALESCE(SUM(credit), 0.0)` over a group. -/
def sumCredit (rs : List RawRecord) : ℚ := (rs.map RawRecord.credit).sum

/-- SQLite `MIN(column)` over a TEXT column: the lexicographically least
non-NULL value, or NULL when every value is NULL. -/
def sqlMinOpt (xs : List (Option String)) : Option String :=
  xs.foldl
    (fun acc x =>
      match acc, x with
      | none, x => x
      | some a, none => some a
      | some a, some b => some (if b < a then b else a))
    none

/-- The one row the non-mortgage branch emits for grouping key `k`. -/
def nmRow (rows : List RawRecord) (k : NMKey) : AggRecord :=
  let g := groupRows nmKey (rows.filter nonMortgage) k
  { month_start := k.base.month_start
    investor := k.base.investor
    owner := k.base.owner
    property_name := k.base.property_name
    property := none
    acquired := sqlMinOpt (g.map RawRecord.acquired)
    categorization := k.base.categorization
    gl_mapping_type := k.base.gl_mapping_type
    value := sumDebit g - sumCredit g
    cash_categorization := k.cash_categorization
    cash_value := sumDebit g - sumCredit g
    cash_type_mapping := sqlMinOpt (g.map RawRecord.cash_type_mapping)
    timeframe := none }

/-- The non-mortgage section of the aggregation insert (first SELECT). -/
def nonMortgageAgg (rows : List RawRecord) : List AggRecord :=
  (groupKeys nmKey (rows.filter nonMortgage)).map (nmRow rows)

/-- The "Mortgage Payment" row the second SELECT emits for mortgage
grouping key `k`: `value = COALESCE(SUM(debit),0)`, cash categorization
`'Mortgage Payment'`, cash value `SUM(debit)`, cash type `'Outflow'`. -/
def paymentRow (rows : List RawRecord) (k : MKey) : AggRecord :=
  let g := groupRows mKey (rows.filter isMortgage) k
  { month_start := k.month_start
    investor := k.investor
    owner := k.owner
    property_name := k.property_name
    property := none
    acquired := sqlMinOpt (g.map RawRecord.acquired)
    categorization := k.categorization
    gl_mapping_type := k.gl_mapping_type
    value := sumDebit g
    cash_categorization := some "Mortgage Payment"
    cash_value := sumDebit g
    cash_type_mapping := some "Outflow"
    timeframe := none }

/-- The "Mortgage Loan" row the third SELECT emits for mortgage grouping key
`k`: `value = 0.0 - COALESCE(SUM(credit),0)`, cash categorization
`'Mortgage Loan'`, cash value `SUM(credit)`, cash type `'Inflow'`. -/
def loanRow (rows : List RawRecord) (k : MKey) : AggRecord :=
  let g := groupRows mKey (rows.filter isMortgage) k
  { month_start := k.month_start
    investor := k.investor
    owner := k.owner
    property_name := k.property_name
    property := none
    acquired := sqlMinOpt (g.map RawRecord.acquired)
    categorization := k.categorization
    gl_mapping_type := k.gl_mapping_type
    value := 0 - sumCredit g
    cash_categorization := some "Mortgage Loan"
    cash_value := sumCredit g
    cash_type_mapping := some "Inflow"
    timeframe := none }

/-- The Mortgage-Payment section of the aggregation insert (second SELECT). -/
def mortgagePaymentAgg (rows : List RawRecord) : List AggRecord :=
  (groupKeys mKey (rows.filter isMortgage)).map (paymentRow rows)

/-- The Mortgage-Loan section of the aggregation insert (third SELECT). -/
def mortgageLoanAgg (rows : List RawRecord) : List AggRecord :=
  (groupKeys mKey (rows.filter isMortgage)).map (loanRow rows)

/-- The `UPDATE gl_agg SET property = (SELECT p.property FROM _prop_map p
WHERE p.property_name = gl_agg.property_name LIMIT 1)` step.  A NULL
`property_name` matches nothing, and an absent match leaves NULL. -/
def addProperty (propMap : List (String × Option String)) (a : AggRecord) : AggRecord :=
  { a with
    property :=
      match a.property_name with
      | none => none
      | some n => (propMap.find? (fun p => p.1 == n)).bind Prod.snd }

/-- The timeframe CASE expression of `build_aggregate_table`, evaluated for a
row whose month is `m`, against cutoff month `cutoff` (the month of the
Statement Thru Date).  On a NULL `month_start` every WHEN condition is NULL,
so the ELSE branch `'[T13]'` is taken. -/
def timeframeOf (cutoff : Month) (m : Option Month) : String :=
  match m with
  | none => "[T13]"
  | some mm =>
    let diff := cutoff.idx - mm.idx
    if diff < 0 then "N/A"
    else if diff ≤ 11 then "[T" ++ toString (diff + 1) ++ "]"
    else "[T13]"

/-- The `UPDATE gl_agg SET timeframe = CASE ... END` step. -/
def addTimeframe (cutoff : Month) (a : AggRecord) : AggRecord :=
  { a with timeframe := some (timeframeOf cutoff a.month_start) }

/-- `gl_enrich_and_aggregate.build_aggregate_table`: the three-way UNION ALL
insert, then the property join, then the timeframe update.  `propMap` is the
`_prop_map` table built from the investor table's (Property Name, Property)
columns; `cutoff` is the calendar month of the parsed Statement Thru Date. -/
def build_aggregate_table (rows : List RawRecord)
    (propMap : List (String × Option String)) (cutoff : Month) : List AggRecord :=
  ((nonMortgageAgg rows ++ mortgagePaymentAgg rows ++ mortgageLoanAgg rows).map
      (addProperty propMap)).map
    (addTimeframe cutoff)

/-- The non-mortgage grouping key as read back off an aggregate row. -/
def aggNMKey (a : AggRecord) : NMKey :=
  ⟨⟨a.month_start, a.investor, a.owner, a.property_name, a.categorization,
    a.gl_mapping_type⟩, a.cash_categorization⟩

/-- The mortgage grouping key as read back off an aggregate row. -/
def aggMKey (a : AggRecord) : MKey :=
  ⟨a.month_start, a.investor, a.owner, a.property_name, a.categorization,
    a.gl_mapping_type⟩

/-- A sample enriched, non-mortgage ledger row dated to the month `y`-`mo`. -/
def wRecAt (y mo : Int) : RawRecord :=
  { month_start := some ⟨y, mo⟩, investor := some "I", owner := some "O",
    property_name := some "PN", acquired := some "2020-01-01",
    categorization := some "Rent", gl_mapping_type := some "Revenue",
    cash_categorization := some "Rent & Dividend", cash_type_mapping := some "Inflow",
    debit := 100, credit := 0 }

/-- The aggregate row produced for the single sample ledger row dated
`y`-`mo`, with Statement Thru Date in 2024-06. -/
def wAggAt (y mo : Int) : AggRecord :=
  addTimeframe ⟨2024, 6⟩ (addProperty [] (nmRow [wRecAt y mo] (nmKey (wRecAt y mo))))

/-- A sample mortgage-tagged ledger row: principal+interest paid 500 on the
debit side, a 200 loan draw on the credit side. -/
def wMortgageRec : RawRecord :=
  { (wRecAt 2024 6) with
    cash_categorization := some "Mortgage"
    cash_type_mapping := some "Both"
    debit := 500
    credit := 200 }

/-- A second sample row in the same non-mortgage group as `wRecAt 2024 6`,
with an earlier acquisition date and a 70 credit. -/
def wRecB : RawRecord :=
  { (wRecAt 2024 6) with
    debit := 0
    credit := 70
    acquired := some "2019-05-01" }

/-! ### String utilities shared by the Python code
`str.strip()`, `str.lower()` and the numeric parsers (`float`,
`pandas.to_numeric`) are modelled on `List Char`. -/

/-- A whitespace character, as Python's `str.strip()` sees it. -/
def isSpaceChar (c : Char) : Bool := c.isWhitespace

/-- Python `str.strip()`: drop whitespace from both ends. -/
def trimChars (cs : List Char) : List Char :=
  ((cs.dropWhile isSpaceChar).reverse.dropWhile isSpaceChar).reverse

/-- `str.strip()` on a `String`. -/
def trimS (s : String) : String := ⟨trimChars s.data⟩

/-- Python `str.lower()` (over the ASCII labels this code compares). -/
def lowerS (s : String) : String := ⟨s.data.map Char.toLower⟩

/-- The numeric value of a digit string read left to right. -/
def digitsVal (cs : List Char) : Nat :=
  cs.foldl (fun a c => a * 10 + (c.toNat - 48)) 0

/-- Parse `digits`, `digits.digits`, `.digits` or `digits.` as a
non-negative rational (the mantissa grammar shared by Python's `float` and
`pandas.to_numeric`; `inf`/`nan` are outside the rational model and all
concrete cells in this development are finite decimals). -/
def parseMantissa? (cs : List Char) : Option ℚ :=
  let ip := cs.takeWhile Char.isDigit
  let rest := cs.dropWhile Char.isDigit
  match rest with
  | [] => if ip.isEmpty then none else some (digitsVal ip : ℚ)
  | '.' :: fp =>
    if fp.all Char.isDigit && !(ip.isEmpty && fp.isEmpty) then
      some ((digitsVal ip : ℚ) + (digitsVal fp : ℚ) / (10 : ℚ) ^ fp.length)
    else none
  | _ => none

/-- Parse an optionally signed digit string as an exponent. -/
def parseExp? (cs : List Char) : Option Int :=
  match cs with
  | '-' :: t => if t.all Char.isDigit && !t.isEmpty then some (-(digitsVal t : Int)) else none
  | '+' :: t => if t.all Char.isDigit && !t.isEmpty then some (digitsVal t : Int) else none
  | t => if t.all Char.isDigit && !t.isEmpty then some (digitsVal t : Int) else none

/-- Parse an unsigned decimal with an optional `e`/`E` exponent. -/
def parseUnsigned? (cs : List Char) : Option ℚ :=
  let m := cs.takeWhile (fun c => c ≠ 'e' && c ≠ 'E')
  let rest := cs.dropWhile (fun c => c ≠ 'e' && c ≠ 'E')
  match rest with
  | [] => parseMantissa? m
  | _ :: expPart =>
    match parseMantissa? m, parseExp? expPart with
    | some mv, some e => some (mv * (10 : ℚ) ^ e)
    | _, _ => none

/-- Parse an optionally signed decimal number, the way `float(s)` /
`pd.to_numeric(s)` read a finite decimal literal. -/
def parseDecimal? (cs : List Char) : Option ℚ :=
  match cs with
  | '-' :: t => (parseUnsigned? t).map (fun q => -q)
  | '+' :: t => parseUnsigned? t
  | t => parseUnsigned? t

/-- `series.str.replace(",", "")` on one cell. -/
def removeCommas (cs : List Char) : List Char := cs.filter (fun c => c ≠ ',')

/-- `gl_ingest._coerce_numeric` on one cell: replace thousands separators,
strip whitespace, `pd.to_numeric(..., errors="coerce")`, `fillna(0.0)`. -/
def coerce_numeric_chars (cs : List Char) : ℚ :=
  (parseDecimal? (trimChars (removeCommas cs))).getD 0

/-- `_coerce_numeric` on a `String` cell. -/
def coerce_numeric (s : String) : ℚ := coerce_numeric_chars s.data

/-! ### Configuration loading: percent-ownership normalization and the
per-(owner, property) sum validation (`common/excel_config.py` for part 1,
`part2_ppt/excel_inputs.py` for part 2). -/

/-- An Excel cell as the loaders see it: a number, a string, or blank
(`NaN`/`None`). -/
inductive CellValue
  | num (x : ℚ)
  | str (s : String)
  | blank
deriving DecidableEq, Repr, Inhabited

/-- Why a single percent cell was rejected. -/
inductive PctError
  | isBlank
  | unparsable
deriving DecidableEq, Repr

/-- `s[:-1].strip()` applied when `s.endswith("%")` (part-1 `_normalize_pct`
string handling; the input is already stripped). -/
def p1StripPct (cs : List Char) : List Char :=
  if cs.getLast? = some '%' then trimChars cs.dropLast else cs

/-- Part-1 `_normalize_pct` (`common/excel_config.py`, identical text in
`_read_run_config` and `_read_investor_table`): a blank fails; a numeric
value in (0,1] is scaled by 100; a string is stripped, loses one trailing
`%`, is parsed, and the parsed value is scaled by 100 when in (0,1]. -/
def part1_normalize_pct (v : CellValue) : Except PctError ℚ :=
  match v with
  | .blank => .error .isBlank
  | .num x => .ok (if 0 < x ∧ x ≤ 1 then x * 100 else x)
  | .str s =>
    let s1 := trimChars s.data
    let s2 := p1StripPct s1
    match parseDecimal? s2 with
    | none => .error .unparsable
    | some x => .ok (if 0 < x ∧ x ≤ 1 then x * 100 else x)

/-- Part-2 `_parse_pct_100_format` (`part2_ppt/excel_inputs.py`): a blank or
empty string fails; a string loses every `%`, is stripped and parsed, and is
returned as-is (already-percent, no fraction scaling); a numeric value in
[0,1] is scaled by 100. -/
def part2_parse_pct (v : CellValue) : Except PctError ℚ :=
  match v with
  | .blank => .error .isBlank
  | .str s =>
    let s1 := trimChars s.data
    if s1.isEmpty then .error .isBlank
    else
      match parseDecimal? (trimChars (s1.filter (fun c => c ≠ '%'))) with
      | none => .error .unparsable
      | some x => .ok x
  | .num x => .ok (if 0 ≤ x ∧ x ≤ 1 then x * 100 else x)

/-- One Investor Table row as part-1's `_read_investor_table` reads it
(Owner and Property Name already string-normalized; only the columns the
ownership-sum validation touches). -/
structure InvRow where
  owner : String
  property_name : String
  pct_cell : CellValue
deriving DecidableEq, Repr

/-- A hard failure of part-1's Investor Table load. -/
inductive InvTableError
  | pct (e : PctError)
  | range
  | sums (examples : List (String × String × ℚ))
deriving DecidableEq, Repr

/-- `df["% Ownership"].apply(_normalize_pct)`: the whole column is
normalized, failing on the first bad cell. -/
def normalizePcts : List InvRow → Except InvTableError (List (String × String × ℚ))
  | [] => .ok []
  | r :: t =>
    match part1_normalize_pct r.pct_cell with
    | .error e => .error (.pct e)
    | .ok x =>
      match normalizePcts t with
      | .error e => .error e
      | .ok rest => .ok ((r.owner, r.property_name, x) :: rest)

/-- `groupby(["Owner", "Property Name"]).sum()` for one key. -/
def groupSum (rows : List (String × String × ℚ)) (k : String × String) : ℚ :=
  ((rows.filter (fun r => decide ((r.1, r.2.1) = k))).map (fun r => r.2.2)).sum

/-- The (Owner, Property Name) keys of the normalized rows. -/
def invKeys (rows : List (String × String × ℚ)) : List (String × String) :=
  groupKeys (fun r : String × String × ℚ => (r.1, r.2.1)) rows

/-- Part-1 `_read_investor_table`, restricted to the percent-ownership
pipeline: normalize the column, reject any value outside (0,100], then
require every (Owner, Property Name) group sum to equal 100.0 exactly
(`sums["pct_ownership"] != 100.0` marks a group bad — no tolerance); a
violation reports the first 25 offending groups (`bad_groups.head(25)`). -/
def part1_read_investor_table (rows : List InvRow) :
    Except InvTableError (List (String × String × ℚ)) :=
  match normalizePcts rows with
  | .error e => .error e
  | .ok nr =>
    if nr.any (fun r => decide (r.2.2 ≤ 0 ∨ 100 < r.2.2)) then .error .range
    else
      let bad := ((invKeys nr).map (fun k => (k.1, k.2, groupSum nr k))).filter
        (fun b => decide (b.2.2 ≠ 100))
      if bad.isEmpty then .ok nr else .error (.sums (bad.take 25))

/-- One Investor Table row as part-2's `load_investor_table_ownership_map`
reads it (Investor/Owner/Property assumed present; blank ones raise
separately before the sum validation and are outside this model). -/
structure Inv2Row where
  investor : String
  owner : String
  property : String
  pct_cell : CellValue
deriving DecidableEq, Repr

/-- A hard failure of part-2's ownership-map load. -/
inductive Inv2Error
  | pct (e : PctError)
  | range
  | noRows
  | sums (examples : List (String × String × ℚ))
deriving DecidableEq, Repr

/-- `sums_by_owner_property[key] = sums_by_owner_property.get(key, 0.0) + pct`. -/
def alAdd (m : List ((String × String) × ℚ)) (k : String × String) (v : ℚ) :
    List ((String × String) × ℚ) :=
  if (m.find? (fun p => decide (p.1 = k))).isSome then
    m.map (fun p => if p.1 = k then (p.1, p.2 + v) else p)
  else m ++ [(k, v)]

/-- `ownership_by_inv_owner[key].append(pct)` (creating the entry first). -/
def alAppend (m : List ((String × String) × List ℚ)) (k : String × String) (v : ℚ) :
    List ((String × String) × List ℚ) :=
  if (m.find? (fun p => decide (p.1 = k))).isSome then
    m.map (fun p => if p.1 = k then (p.1, p.2 ++ [v]) else p)
  else m ++ [(k, [v])]

/-- The row-scanning loop of `load_investor_table_ownership_map`: per row,
parse the percent, reject values outside (0,100], and accumulate the
per-(investor, owner) percent lists and the per-(owner, property) sums, all
keyed by stripped lowercase strings. -/
def part2_scan : List Inv2Row → List ((String × String) × List ℚ) →
    List ((String × String) × ℚ) →
    Except Inv2Error (List ((String × String) × List ℚ) × List ((String × String) × ℚ))
  | [], byInvOwner, sums => .ok (byInvOwner, sums)
  | r :: t, byInvOwner, sums =>
    match part2_parse_pct r.pct_cell with
    | .error e => .error (.pct e)
    | .ok pct =>
      if pct ≤ 0 ∨ 100 < pct then .error .range
      else
        part2_scan t
          (alAppend byInvOwner (lowerS (trimS r.investor), lowerS (trimS r.owner)) pct)
          (alAdd sums (lowerS (trimS r.owner), lowerS (trimS r.property)) pct)

/-- The per-(owner, property) sums accumulated by the scan (empty if the
scan failed). -/
def part2_sums (rows : List Inv2Row) : List ((String × String) × ℚ) :=
  match part2_scan rows [] [] with
  | .ok (_, sums) => sums
  | .error _ => []

/-- Part-2 `load_investor_table_ownership_map`, restricted to the
percent-ownership pipeline: scan the rows, require at least one, then require
every per-(owner, property) sum to be within `tolerance = 0.01` of 100.0;
a violation reports the first 10 offending groups (`bad[:10]`). -/
def part2_load_ownership (rows : List Inv2Row) :
    Except Inv2Error (List ((String × String) × List ℚ)) :=
  match part2_scan rows [] [] with
  | .error e => .error e
  | .ok (byInvOwner, sums) =>
    if byInvOwner.isEmpty then .error .noRows
    else
      let bad := sums.filter (fun p => decide (1 / 100 < |p.2 - 100|))
      if bad.isEmpty then .ok byInvOwner
      else .error (.sums ((bad.take 10).map (fun p => (p.1.1, p.1.2, p.2))))

/-! ### Aggregate query layer (`part2_ppt/ppt_monthly_stmt_values.py`). -/

/-- `_TIMEFRAMES = [f"[T{n}]" for n in range(1, 14)]`. -/
def timeframeTokens : List String := (List.range 13).map (fun n => "[T" ++ toString (n + 1) ++ "]")

/-- The common timeframe restriction of the query SQL:
`(timeframe IS NULL OR timeframe <> 'N/A') AND timeframe IN (_TIMEFRAMES)`
(a NULL timeframe fails the IN test, so the net effect is membership). -/
def inTimeframe (a : AggRecord) : Bool :=
  match a.timeframe with
  | some t => timeframeTokens.contains t
  | none => false

/-- The optional `AND owner = ?` / `AND property = ?` filters
(`_owner_filter_sql` / `_property_filter_sql`; `none` means no filter). -/
def matchOptFilter (flt : Option String) (v : Option String) : Bool :=
  match flt with
  | none => true
  | some f => v == some f

/-- `wanted_cats` of `build_monthly_perf_totals`. -/
def wantedCats : List String :=
  ["Rent", "Dividend", "HOA & Mgt. Fee", "Repairs & Other Exp.", "Mortgage Interest"]

/-- The WHERE clause of the performance-totals query. -/
def perfFilter (inv : String) (own prop : Option String) (a : AggRecord) : Bool :=
  a.investor == some inv && inTimeframe a &&
    (match a.categorization with
     | some c => wantedCats.contains c
     | none => false) &&
    matchOptFilter own a.owner && matchOptFilter prop a.property

/-- `GROUP BY categorization, gl_mapping_type` with `SUM(value)`: the rows
Python's loop in `build_monthly_perf_totals` receives. -/
def perfGroups (inv : String) (own prop : Option String) (aggRows : List AggRecord) :
    List ((Option String × Option String) × ℚ) :=
  let fr := aggRows.filter (perfFilter inv own prop)
  (groupKeys (fun a => (a.categorization, a.gl_mapping_type)) fr).map
    (fun k =>
      (k, ((groupRows (fun a => (a.categorization, a.gl_mapping_type)) fr k).map
        AggRecord.value).sum))

/-- `str(mapping_type or "").strip().lower()`. -/
def normMT (mt : Option String) : String := lowerS (trimS (mt.getD ""))

/-- `mt in ("revenue", "expense")`: the sign-flip test. -/
def flipMT (mt : Option String) : Bool := normMT mt == "revenue" || normMT mt == "expense"

/-- One iteration of the `for cat, mapping_type, total_value in rows` loop of
`build_monthly_perf_totals`: flip the sign for Revenue/Expense mapping types
and add into `cat_totals` when the category is one of the wanted keys. -/
def stepPerf (acc : String → ℚ) (row : (Option String × Option String) × ℚ) :
    String → ℚ :=
  let catKey := trimS (row.1.1.getD "")
  let v := if flipMT row.1.2 then -row.2 else row.2
  if wantedCats.contains catKey then
    fun c => if c = catKey then acc c + v else acc c
  else acc

/-- `cat_totals` after the whole loop (initialized to 0 for every key). -/
def perfCatTotals (rows : List ((Option String × Option String) × ℚ)) : String → ℚ :=
  rows.foldl stepPerf (fun _ => 0)

/-- The dictionary `build_monthly_perf_totals` returns. -/
structure PerfTotals where
  rent : ℚ
  dividend : ℚ
  total_revenue : ℚ
  hoa_mgt : ℚ
  repairs_other : ℚ
  mortgage_interest : ℚ
  total_expenses : ℚ
  monthly : ℚ
  cumulative : ℚ
deriving Repr

/-- `ppt_monthly_stmt_values.build_monthly_perf_totals` over the aggregate
rows, for investor `inv` with optional owner/property filters. -/
def build_monthly_perf_totals (inv : String) (own prop : Option String)
    (aggRows : List AggRecord) : PerfTotals :=
  let ct := perfCatTotals (perfGroups inv own prop aggRows)
  let rent := ct "Rent"
  let dividend := ct "Dividend"
  let hoa := ct "HOA & Mgt. Fee"
  let rep := ct "Repairs & Other Exp."
  let mi := ct "Mortgage Interest"
  { rent := rent
    dividend := dividend
    total_revenue := rent + dividend
    hoa_mgt := hoa
    repairs_other := rep
    mortgage_interest := mi
    total_expenses := hoa + rep + mi
    monthly := rent + dividend + (hoa + rep + mi)
    cumulative := rent + dividend + (hoa + rep + mi) }

/-- The sample aggregate row for the C6 example: mapping type Revenue, raw
aggregate value −500, inside the 13-month window. -/
def wPerfRow : AggRecord :=
  { month_start := some ⟨2024, 6⟩, investor := some "I", owner := some "O",
    property_name := some "PN", property := some "P", acquired := none,
    categorization := some "Rent", gl_mapping_type := some "Revenue",
    value := -500, cash_categorization := some "Rent & Dividend",
    cash_value := -500, cash_type_mapping := some "Inflow",
    timeframe := some "[T1]" }

/-- The WHERE clause of the cash-totals query (no category whitelist). -/
def cashFilter (inv : String) (own prop : Option String) (a : AggRecord) : Bool :=
  a.investor == some inv && inTimeframe a &&
    matchOptFilter own a.owner && matchOptFilter prop a.property

/-- `GROUP BY cash_categorization, cash_type_mapping` with `SUM(cash_value)`:
the rows Python's loop in `build_monthly_cash_totals` receives. -/
def cashGroups (inv : String) (own prop : Option String) (aggRows : List AggRecord) :
    List ((Option String × Option String) × ℚ) :=
  let fr := aggRows.filter (cashFilter inv own prop)
  (groupKeys (fun a => (a.cash_categorization, a.cash_type_mapping)) fr).map
    (fun k =>
      (k, ((groupRows (fun a => (a.cash_categorization, a.cash_type_mapping)) fr k).map
        AggRecord.cash_value).sum))

/-- The running state of the cash loop: the `by_cat` dictionary (insertion
order preserved, as in a Python dict) and the inflow/outflow totals. -/
structure CashState where
  byCat : List (String × ℚ)
  inflow : ℚ
  outflow : ℚ
deriving Repr

/-- `d.get(k, default)` on the association-list dictionary. -/
def alGet (m : List (String × ℚ)) (k : String) (d : ℚ) : ℚ :=
  match m.find? (fun p => decide (p.1 = k)) with
  | some p => p.2
  | none => d

/-- `d[k] = v` on the association-list dictionary. -/
def alSet (m : List (String × ℚ)) (k : String) (v : ℚ) : List (String × ℚ) :=
  if (m.find? (fun p => decide (p.1 = k))).isSome then
    m.map (fun p => if p.1 = k then (p.1, v) else p)
  else m ++ [(k, v)]

/-- One iteration of the `for cat, cash_type, total_value in rows` loop of
`build_monthly_cash_totals`: `v_raw = -total`, the Both/"Mortgage Principal"
pair is re-routed by the sign of `v_raw`, every other row feeds the
inflow/outflow totals strictly by its mapping label, and `by_cat[cat] +=
v_signed` for a non-empty category key. -/
def stepCash (s : CashState) (row : (Option String × Option String) × ℚ) : CashState :=
  let catKey0 := trimS (row.1.1.getD "")
  let ct := lowerS (trimS (row.1.2.getD ""))
  let vRaw := -row.2
  let vAbs := |vRaw|
  let res : String × ℚ × ℚ × ℚ :=
    if ct = "both" ∧ catKey0 = "Mortgage Principal" then
      if 0 < vRaw then ("Mortgage Loan", vAbs, s.inflow + vAbs, s.outflow)
      else if vRaw < 0 then (catKey0, -vAbs, s.inflow, s.outflow + -vAbs)
      else (catKey0, 0, s.inflow, s.outflow)
    else if ct = "inflow" then (catKey0, vAbs, s.inflow + vAbs, s.outflow)
    else if ct = "outflow" then (catKey0, -vAbs, s.inflow, s.outflow + -vAbs)
    else (catKey0, 0, s.inflow, s.outflow)
  { byCat :=
      if res.1 = "" then s.byCat
      else alSet s.byCat res.1 (alGet s.byCat res.1 0 + res.2.1)
    inflow := res.2.2.1
    outflow := res.2.2.2 }

/-- `by_cat`, `inflow_total` and `outflow_total` after the whole loop. -/
def cashFold (rows : List ((Option String × Option String) × ℚ)) : CashState :=
  rows.foldl stepCash ⟨[], 0, 0⟩

/-- The dictionary `build_monthly_cash_totals` returns. -/
structure CashTotals where
  owner_contribution : ℚ
  mortgage_loan : ℚ
  rent_dividend : ℚ
  total_inflow : ℚ
  hoa_mgt : ℚ
  repairs_other : ℚ
  mortgage_interest : ℚ
  mortgage_principal : ℚ
  apartment_improve : ℚ
  owner_distribution : ℚ
  total_outflow : ℚ
  monthly : ℚ
  cumulative : ℚ
deriving Repr

/-- `ppt_monthly_stmt_values.build_monthly_cash_totals` over the aggregate
rows ("Mortgage Principal" falls back to the legacy "Mortgage Principle"
spelling when absent, as in the code). -/
def build_monthly_cash_totals (inv : String) (own prop : Option String)
    (aggRows : List AggRecord) : CashTotals :=
  let st := cashFold (cashGroups inv own prop aggRows)
  { owner_contribution := alGet st.byCat "Owner Contribution" 0
    mortgage_loan := alGet st.byCat "Mortgage Loan" 0
    rent_dividend := alGet st.byCat "Rent & Dividend" 0
    total_inflow := st.inflow
    hoa_mgt := alGet st.byCat "HOA & Mgt. Fee" 0
    repairs_other := alGet st.byCat "Repairs & Other Exp." 0
    mortgage_interest := alGet st.byCat "Mortgage Interest" 0
    mortgage_principal :=
      alGet st.byCat "Mortgage Principal" (alGet st.byCat "Mortgage Principle" 0)
    apartment_improve := alGet st.byCat "Apartment & Improve." 0
    owner_distribution := alGet st.byCat "Owner Distribution" 0
    total_outflow := st.outflow
    monthly := st.inflow + st.outflow
    cumulative := st.inflow + st.outflow }

/-! ### Ownership scaling (`part2_ppt/ppt_objects.py`, `part2_ppt/main.py`). -/

/-- The two `config` module values `apply_ownership_amount` consults. -/
structure Part2Config where
  ownership_force_100 : Bool
  ownership_scaling_exceptions : List String
deriving Repr

/-- `ppt_objects.UpdateContext` (the fields the monetary path reads). -/
structure UpdateContext where
  investor : String
  owner : Option String
  ownership_pct : ℚ
  ownership_factor : ℚ
deriving Repr

/-- `ppt_objects.apply_ownership_amount` (`float(amount or 0.0)` is the
identity on numbers, so the `or 0.0` fallbacks vanish in the model). -/
def apply_ownership_amount (cfg : Part2Config) (ctx : UpdateContext) (amount : ℚ)
    (key : String) : ℚ :=
  if cfg.ownership_force_100 then amount
  else if 100 ≤ ctx.ownership_pct then amount
  else if trimS key ≠ "" ∧ trimS key ∈ cfg.ownership_scaling_exceptions then amount
  else amount * ctx.ownership_factor

/-- Python `min(pcts)` on a nonempty list (`main` raises before calling it on
an empty one). -/
def minList (xs : List ℚ) : ℚ :=
  match xs with
  | [] => 0
  | h :: t => t.foldl min h

/-- `part2_ppt/main.py` lines 81–82: `100.0 if all(x >= 100.0 for x in pcts)
else min(pcts)`, computed once per run. -/
def compute_ownership_pct (pcts : List ℚ) : ℚ :=
  if pcts.all (fun x => decide (100 ≤ x)) then 100 else minList pcts

/-! ### The part-1 entry point's aggregation call (`part1_gl/main.py`). -/

/-- The parameters of `build_aggregate_table`
(`gl_enrich_and_aggregate.py` lines 168–174); none has a default. -/
def build_aggregate_table_params : List String :=
  ["db_path", "gl_raw_table", "gl_agg_table", "investor_table_df",
    "statement_thru_date"]

/-- The keyword arguments `run_part1` passes at its aggregation call
(`part1_gl/main.py` lines 64–68). -/
def run_part1_agg_call_args : List String :=
  ["db_path", "gl_raw_table", "gl_agg_table"]

/-- The required parameters a call leaves unbound. -/
def missingArgs (params provided : List String) : List String :=
  params.filter (fun p => !provided.contains p)

/-- Python keyword-call semantics for a function with no parameter defaults:
the call raises `TypeError` before the body runs whenever any required
parameter is missing. -/
def pythonCall (params provided : List String) : Except String Unit :=
  if (missingArgs params provided).isEmpty then .ok () else .error "TypeError"

/-- The observable stages of `run_part1`, in order. -/
inductive Part1Step
  | loadConfig
  | createFolders
  | ingest
  | enrich
  | aggregate
deriving DecidableEq, Repr

/-- `run_part1` (reached from the CLI via part "1"): configuration load,
folder creation, ingestion and enrichment run; then the call to
`build_aggregate_table` is bound against its parameter list.  The result is
the list of stages whose side effects occurred and the Python outcome. -/
def run_part1 : List Part1Step × Except String Unit :=
  let pre := [Part1Step.loadConfig, Part1Step.createFolders, Part1Step.ingest,
    Part1Step.enrich]
  match pythonCall build_aggregate_table_params run_part1_agg_call_args with
  | .error e => (pre, .error e)
  | .ok _ => (pre ++ [Part1Step.aggregate], .ok ())

/-! ### Theorems -/

theorem filter_map_key_eq {κ β : Type} [DecidableEq κ] (f : κ → β) (keyOf : β → κ)
    (hf : ∀ k, keyOf (f k) = k) (l : List κ) (hnd : l.Nodup) (k : κ) (hk : k ∈ l) :
    (l.map f).filter (fun r => decide (keyOf r = k)) = [f k] := by
  induction l with
  | nil => cases hk
  | cons a t ih =>
    rcases List.nodup_cons.mp hnd with ⟨ha, hndt⟩
    rcases List.mem_cons.mp hk with h | h
    · have ht : (t.map f).filter (fun r => decide (keyOf r = k)) = [] := by
        refine List.filter_eq_nil_iff.mpr ?_
        intro b hb
        rcases List.mem_map.mp hb with ⟨c, hc, rfl⟩
        simp only [hf c, decide_eq_true_eq]
        intro hca
        exact ha ((hca.trans h) ▸ hc)
      subst h
      simp [List.filter_cons, hf k, ht]
    · have hne : a ≠ k := fun e => ha (e ▸ h)
      have ht := ih hndt h
      simp [List.filter_cons, hf a, hne, ht]

theorem mem_build_timeframe (rows : List RawRecord)
    (propMap : List (String × Option String)) (cutoff : Month) :
    ∀ a ∈ build_aggregate_table rows propMap cutoff,
      a.timeframe = some (timeframeOf cutoff a.month_start) := by
  intro a ha
  rcases List.mem_map.mp ha with ⟨b, _, rfl⟩
  rfl

theorem mem_build_of_mem_sections (rows : List RawRecord)
    (propMap : List (String × Option String)) (cutoff : Month) (b : AggRecord)
    (hb : b ∈ nonMortgageAgg rows ++ mortgagePaymentAgg rows ++ mortgageLoanAgg rows) :
    addTimeframe cutoff (addProperty propMap b) ∈
      build_aggregate_table rows propMap cutoff :=
  List.mem_map_of_mem _ (List.mem_map_of_mem _ hb)

/-- Claim C1: every row of the aggregate table built by `build_aggregate_table`
with cutoff month `cutoff` carries the timeframe label determined by the
calendar-month difference `diff = months(cutoff) - months(row.month)`:
`"N/A"` when `diff < 0`, `"[T(diff+1)]"` when `0 ≤ diff ≤ 11` (so the cutoff
month gets `"[T1]"` and eleven months prior `"[T12]"`), and `"[T13]"` when
`diff ≥ 12`. -/
theorem claim_C1_timeframe (rows : List RawRecord)
    (propMap : List (String × Option String)) (cutoff : Month) (a : AggRecord)
    (ha : a ∈ build_aggregate_table rows propMap cutoff) (m : Month)
    (hm : a.month_start = some m) :
    (cutoff.idx - m.idx < 0 → a.timeframe = some "N/A") ∧
    (0 ≤ cutoff.idx - m.idx → cutoff.idx - m.idx ≤ 11 →
      a.timeframe = some ("[T" ++ toString (cutoff.idx - m.idx + 1) ++ "]")) ∧
    (12 ≤ cutoff.idx - m.idx → a.timeframe = some "[T13]") := by
  have h := mem_build_timeframe rows propMap cutoff a ha
  rw [hm] at h
  refine ⟨?_, ?_, ?_⟩
  · intro hlt
    rw [h]
    simp only [timeframeOf, if_pos hlt]
  · intro h0 h11
    rw [h]
    simp only [timeframeOf]
    rw [if_neg (by omega), if_pos h11]
  · intro h12
    rw [h]
    simp only [timeframeOf]
    rw [if_neg (by omega), if_neg (by omega)]

theorem wAggAt_mem (y mo : Int) :
    wAggAt y mo ∈ build_aggregate_table [wRecAt y mo] [] ⟨2024, 6⟩ := by
  refine mem_build_of_mem_sections _ _ _ _ ?_
  refine List.mem_append_left _ (List.mem_append_left _ ?_)
  exact List.mem_map_of_mem _ (by simp [groupKeys, nonMortgage, wRecAt])

theorem claim_C1_timeframe_witness :
    (wAggAt 2024 6).timeframe = some "[T1]" ∧
    (wAggAt 2023 7).timeframe = some "[T12]" ∧
    (wAggAt 2023 6).timeframe = some "[T13]" ∧
    (wAggAt 2024 7).timeframe = some "N/A" := by
  refine ⟨?_, ?_, ?_, ?_⟩
  · exact ((claim_C1_timeframe [wRecAt 2024 6] [] ⟨2024, 6⟩ _ (wAggAt_mem 2024 6)
      ⟨2024, 6⟩ rfl).2.1 (by decide) (by decide)).trans (by decide)
  · exact ((claim_C1_timeframe [wRecAt 2023 7] [] ⟨2024, 6⟩ _ (wAggAt_mem 2023 7)
      ⟨2023, 7⟩ rfl).2.1 (by decide) (by decide)).trans (by decide)
  · exact (claim_C1_timeframe [wRecAt 2023 6] [] ⟨2024, 6⟩ _ (wAggAt_mem 2023 6)
      ⟨2023, 6⟩ rfl).2.2 (by decide)
  · exact (claim_C1_timeframe [wRecAt 2024 7] [] ⟨2024, 6⟩ _ (wAggAt_mem 2024 7)
      ⟨2024, 7⟩ rfl).1 (by decide)

@[simp] theorem addProperty_cash_categorization (pm : List (String × Option String))
    (a : AggRecord) : (addProperty pm a).cash_categorization = a.cash_categorization := rfl

@[simp] theorem addTimeframe_cash_categorization (c : Month) (a : AggRecord) :
    (addTimeframe c a).cash_categorization = a.cash_categorization := rfl

theorem build_no_raw_mortgage_row (rows : List RawRecord)
    (propMap : List (String × Option String)) (cutoff : Month) :
    ∀ a ∈ build_aggregate_table rows propMap cutoff,
      a.cash_categorization ≠ some "Mortgage" := by
  intro a ha
  rcases List.mem_map.mp ha with ⟨b1, hb1, rfl⟩
  rcases List.mem_map.mp hb1 with ⟨b, hb, rfl⟩
  simp only [addProperty_cash_categorization, addTimeframe_cash_categorization]
  rcases List.mem_append.mp hb with hb2 | hloan
  · rcases List.mem_append.mp hb2 with hnm | hpay
    · rcases List.mem_map.mp hnm with ⟨k, hk, rfl⟩
      rcases List.mem_map.mp (List.mem_dedup.mp hk) with ⟨r, hr, rfl⟩
      have hnmr : nonMortgage r = true := (List.mem_filter.mp hr).2
      show r.cash_categorization ≠ some "Mortgage"
      intro hcc
      simp [nonMortgage, hcc] at hnmr
    · rcases List.mem_map.mp hpay with ⟨k, _, rfl⟩
      show some "Mortgage Payment" ≠ some "Mortgage"
      decide
  · rcases List.mem_map.mp hloan with ⟨k, _, rfl⟩
    show some "Mortgage Loan" ≠ some "Mortgage"
    decide

/-- Claim C2: a mortgage-tagged group (key `k` among the mortgage grouping
keys) yields exactly one "Mortgage Payment"/Outflow row with
`value = cash_value = sum(debit)` and exactly one "Mortgage Loan"/Inflow row
with `value = 0 - sum(credit)` and `cash_value = sum(credit)`; both reach the
final table, and no aggregate row at all keeps the raw "Mortgage"
cash-categorization. -/
theorem claim_C2_mortgage_rows (rows : List RawRecord)
    (propMap : List (String × Option String)) (cutoff : Month) (k : MKey)
    (hk : k ∈ groupKeys mKey (rows.filter isMortgage)) :
    ((mortgagePaymentAgg rows).filter (fun a => decide (aggMKey a = k)) =
      [paymentRow rows k]) ∧
    (paymentRow rows k).cash_categorization = some "Mortgage Payment" ∧
    (paymentRow rows k).cash_type_mapping = some "Outflow" ∧
    (paymentRow rows k).value = sumDebit (groupRows mKey (rows.filter isMortgage) k) ∧
    (paymentRow rows k).cash_value =
      sumDebit (groupRows mKey (rows.filter isMortgage) k) ∧
    ((mortgageLoanAgg rows).filter (fun a => decide (aggMKey a = k)) =
      [loanRow rows k]) ∧
    (loanRow rows k).cash_categorization = some "Mortgage Loan" ∧
    (loanRow rows k).cash_type_mapping = some "Inflow" ∧
    (loanRow rows k).value = 0 - sumCredit (groupRows mKey (rows.filter isMortgage) k) ∧
    (loanRow rows k).cash_value = sumCredit (groupRows mKey (rows.filter isMortgage) k) ∧
    addTimeframe cutoff (addProperty propMap (paymentRow rows k)) ∈
      build_aggregate_table rows propMap cutoff ∧
    addTimeframe cutoff (addProperty propMap (loanRow rows k)) ∈
      build_aggregate_table rows propMap cutoff ∧
    (∀ a ∈ build_aggregate_table rows propMap cutoff,
      a.cash_categorization ≠ some "Mortgage") := by
  refine ⟨?_, rfl, rfl, rfl, rfl, ?_, rfl, rfl, rfl, rfl, ?_, ?_, ?_⟩
  · exact filter_map_key_eq (paymentRow rows) aggMKey (fun _ => rfl) _
      (List.nodup_dedup _) k hk
  · exact filter_map_key_eq (loanRow rows) aggMKey (fun _ => rfl) _
      (List.nodup_dedup _) k hk
  · refine mem_build_of_mem_sections _ _ _ _ ?_
    exact List.mem_append_left _
      (List.mem_append_right _ (List.mem_map_of_mem _ hk))
  · refine mem_build_of_mem_sections _ _ _ _ ?_
    exact List.mem_append_right _ (List.mem_map_of_mem _ hk)
  · exact build_no_raw_mortgage_row rows propMap cutoff

theorem claim_C2_mortgage_rows_witness :
    (mortgagePaymentAgg [wMortgageRec]).filter
        (fun a => decide (aggMKey a = mKey wMortgageRec)) =
      [paymentRow [wMortgageRec] (mKey wMortgageRec)] ∧
    (paymentRow [wMortgageRec] (mKey wMortgageRec)).value = 500 ∧
    (loanRow [wMortgageRec] (mKey wMortgageRec)).value = -200 ∧
    (loanRow [wMortgageRec] (mKey wMortgageRec)).cash_value = 200 := by
  have hk : mKey wMortgageRec ∈ groupKeys mKey ([wMortgageRec].filter isMortgage) := by
    simp [groupKeys, isMortgage, wMortgageRec, wRecAt]
  have h := claim_C2_mortgage_rows [wMortgageRec] [] ⟨2024, 6⟩ (mKey wMortgageRec) hk
  refine ⟨h.1, ?_, ?_, ?_⟩
  · refine h.2.2.2.1.trans ?_
    simp [groupRows, isMortgage, mKey, wMortgageRec, wRecAt, sumDebit]
  · refine h.2.2.2.2.2.2.2.2.1.trans ?_
    simp [groupRows, isMortgage, mKey, wMortgageRec, wRecAt, sumCredit]
  · refine h.2.2.2.2.2.2.2.2.2.1.trans ?_
    simp [groupRows, isMortgage, mKey, wMortgageRec, wRecAt, sumCredit]

/-- Claim C3: a non-mortgage group (key `k` among the non-mortgage grouping
keys, which include the cash categorization) yields exactly one aggregate
row, with `value = sum(debit) - sum(credit)`, `cash_value` identical, and
`acquired` the minimum acquisition date seen in the group; the row reaches
the final table. -/
theorem claim_C3_non_mortgage_rows (rows : List RawRecord)
    (propMap : List (String × Option String)) (cutoff : Month) (k : NMKey)
    (hk : k ∈ groupKeys nmKey (rows.filter nonMortgage)) :
    ((nonMortgageAgg rows).filter (fun a => decide (aggNMKey a = k)) =
      [nmRow rows k]) ∧
    (nmRow rows k).value =
      sumDebit (groupRows nmKey (rows.filter nonMortgage) k) -
        sumCredit (groupRows nmKey (rows.filter nonMortgage) k) ∧
    (nmRow rows k).cash_value = (nmRow rows k).value ∧
    (nmRow rows k).acquired =
      sqlMinOpt ((groupRows nmKey (rows.filter nonMortgage) k).map
        RawRecord.acquired) ∧
    addTimeframe cutoff (addProperty propMap (nmRow rows k)) ∈
      build_aggregate_table rows propMap cutoff := by
  refine ⟨?_, rfl, rfl, rfl, ?_⟩
  · exact filter_map_key_eq (nmRow rows) aggNMKey (fun _ => rfl) _
      (List.nodup_dedup _) k hk
  · refine mem_build_of_mem_sections _ _ _ _ ?_
    exact List.mem_append_left _ (List.mem_append_left _ (List.mem_map_of_mem _ hk))

theorem claim_C3_non_mortgage_rows_witness :
    ((nonMortgageAgg [wRecAt 2024 6, wRecB]).filter
        (fun a => decide (aggNMKey a = nmKey (wRecAt 2024 6))) =
      [nmRow [wRecAt 2024 6, wRecB] (nmKey (wRecAt 2024 6))]) ∧
    (nmRow [wRecAt 2024 6, wRecB] (nmKey (wRecAt 2024 6))).value = 30 ∧
    (nmRow [wRecAt 2024 6, wRecB] (nmKey (wRecAt 2024 6))).acquired =
      some "2019-05-01" := by
  have hk : nmKey (wRecAt 2024 6) ∈
      groupKeys nmKey ([wRecAt 2024 6, wRecB].filter nonMortgage) := by
    simp [groupKeys, nonMortgage, wRecAt, wRecB]
  have h := claim_C3_non_mortgage_rows [wRecAt 2024 6, wRecB] [] ⟨2024, 6⟩
    (nmKey (wRecAt 2024 6)) hk
  refine ⟨h.1, h.2.1.trans ?_, h.2.2.2.1.trans ?_⟩
  · simp [groupRows, nonMortgage, nmKey, wRecB, wRecAt, sumDebit, sumCredit]
    norm_num
  · simp [groupRows, nonMortgage, nmKey, wRecB, wRecAt, sqlMinOpt]
    decide

theorem removeCommas_append (s t : List Char) :
    removeCommas (s ++ t) = removeCommas s ++ removeCommas t :=
  List.filter_append s t

theorem trimChars_cons_space (cs : List Char) :
    trimChars (' ' :: cs) = trimChars cs := by
  unfold trimChars
  rw [List.dropWhile_cons_of_pos (by decide : isSpaceChar ' ' = true)]

theorem trimChars_append_space (cs : List Char) :
    trimChars (cs ++ [' ']) = trimChars cs := by
  unfold trimChars
  rw [List.dropWhile_append]
  by_cases h : (cs.dropWhile isSpaceChar).isEmpty
  · rw [if_pos h]
    rw [List.isEmpty_iff.mp h]
    decide
  · rw [if_neg h]
    rw [List.reverse_append]
    simp only [List.reverse_cons, List.reverse_nil, List.nil_append,
      List.singleton_append]
    rw [List.dropWhile_cons_of_pos (by decide : isSpaceChar ' ' = true)]

/-- Claim C9: `_coerce_numeric` (applied to the Debit, Credit and Balance
columns at ingestion) parses each cell after removing "," thousands
separators and surrounding whitespace, coerces every unparsable cell to 0,
and is a total function (it never raises): inserting a comma anywhere or
whitespace at either end never changes the result, an unparsable cell gives
0, a parsable cell gives its parsed value, and the sample cells
`" 1,234.56"`, `"abc"`, `""` give `1234.56`, `0`, `0`. -/
theorem claim_C9_coerce_numeric :
    (∀ s t : List Char,
      coerce_numeric_chars (s ++ ',' :: t) = coerce_numeric_chars (s ++ t)) ∧
    (∀ cs : List Char, coerce_numeric_chars (' ' :: cs) = coerce_numeric_chars cs) ∧
    (∀ cs : List Char, coerce_numeric_chars (cs ++ [' ']) = coerce_numeric_chars cs) ∧
    (∀ cs : List Char, parseDecimal? (trimChars (removeCommas cs)) = none →
      coerce_numeric_chars cs = 0) ∧
    (∀ (cs : List Char) (v : ℚ), parseDecimal? (trimChars (removeCommas cs)) = some v →
      coerce_numeric_chars cs = v) ∧
    coerce_numeric " 1,234.56" = 123456 / 100 ∧
    coerce_numeric "abc" = 0 ∧
    coerce_numeric "" = 0 := by
  refine ⟨?_, ?_, ?_, ?_, ?_, ?_, by decide, by decide⟩
  · intro s t
    have h : removeCommas (s ++ ',' :: t) = removeCommas (s ++ t) := by
      rw [show (',' :: t) = [','] ++ t from rfl, removeCommas_append,
        removeCommas_append, show removeCommas [','] = [] from by decide,
        List.nil_append]
      exact (removeCommas_append s t).symm
    unfold coerce_numeric_chars
    rw [h]
  · intro cs
    have h : removeCommas (' ' :: cs) = ' ' :: removeCommas cs := by
      simp [removeCommas, List.filter_cons]
    unfold coerce_numeric_chars
    rw [h, trimChars_cons_space]
  · intro cs
    have h : removeCommas (cs ++ [' ']) = removeCommas cs ++ [' '] := by
      rw [removeCommas_append]
      congr 1
    unfold coerce_numeric_chars
    rw [h, trimChars_append_space]
  · intro cs h
    unfold coerce_numeric_chars
    rw [h]
    rfl
  · intro cs v h
    unfold coerce_numeric_chars
    rw [h]
    rfl
  · show coerce_numeric_chars (" 1,234.56".data) = 123456 / 100
    simp +decide [coerce_numeric_chars, removeCommas, trimChars, isSpaceChar,
      parseDecimal?, parseUnsigned?, parseMantissa?, digitsVal]
    norm_num

theorem claim_C9_coerce_numeric_witness :
    coerce_numeric_chars ("9a9".data) = 0 ∧ coerce_numeric_chars ("-2.5".data) = -5 / 2 := by
  constructor
  · refine claim_C9_coerce_numeric.2.2.2.1 ("9a9".data) ?_
    decide
  · refine claim_C9_coerce_numeric.2.2.2.2.1 ("-2.5".data) (-5 / 2) ?_
    have h : trimChars (removeCommas "-2.5".data) = "-2.5".data := by decide
    rw [h]
    simp +decide [parseDecimal?, parseUnsigned?, parseMantissa?, digitsVal]
    norm_num

theorem normalizePcts_error_shape :
    ∀ (rows : List InvRow) (e : InvTableError), normalizePcts rows = .error e →
      ∃ pe, e = .pct pe := by
  intro rows
  induction rows with
  | nil => intro e h; exact Except.noConfusion h
  | cons r t ih =>
    intro e h
    simp only [normalizePcts] at h
    cases hp : part1_normalize_pct r.pct_cell with
    | error pe =>
      rw [hp] at h
      injection h with h2
      exact ⟨pe, h2.symm⟩
    | ok x =>
      rw [hp] at h
      cases hnt : normalizePcts t with
      | error e2 =>
        rw [hnt] at h
        injection h with h2
        obtain ⟨pe, hpe⟩ := ih e2 hnt
        exact ⟨pe, h2 ▸ hpe ▸ rfl⟩
      | ok rest =>
        rw [hnt] at h
        exact Except.noConfusion h

theorem part2_scan_error_shape :
    ∀ (rows : List Inv2Row) (b : List ((String × String) × List ℚ))
      (s : List ((String × String) × ℚ)) (e : Inv2Error),
      part2_scan rows b s = .error e → (∃ pe, e = .pct pe) ∨ e = .range := by
  intro rows
  induction rows with
  | nil => intro b s e h; exact Except.noConfusion h
  | cons r t ih =>
    intro b s e h
    simp only [part2_scan] at h
    cases hp : part2_parse_pct r.pct_cell with
    | error pe =>
      rw [hp] at h
      injection h with h2
      exact Or.inl ⟨pe, h2.symm⟩
    | ok pct =>
      rw [hp] at h
      simp only [] at h
      by_cases hr : pct ≤ 0 ∨ 100 < pct
      · rw [if_pos hr] at h
        injection h with h2
        exact Or.inr h2.symm
      · rw [if_neg hr] at h
        exact ih _ _ e h

/-- Counterexample to claim C4: the part-1 Investor Table loader does NOT
accept every (owner, property) group whose sum is within 0.01 of 100.0 —
it requires the sum to equal 100.0 exactly.  Percentages [60, 40.005] sum to
100.005, inside the claimed tolerance, yet `_read_investor_table` raises;
the part-2 loader (which really uses the 0.01 tolerance) accepts the same
data. -/
theorem claim_C4_counterexample :
    |(60 : ℚ) + 8001 / 200 - 100| ≤ 1 / 100 ∧
    part1_read_investor_table
        [⟨"O", "P", .num 60⟩, ⟨"O", "P", .num (8001 / 200)⟩] =
      .error (.sums [("O", "P", 20001 / 200)]) ∧
    part2_load_ownership
        [⟨"I1", "O", "P", .num 60⟩, ⟨"I2", "O", "P", .num (8001 / 200)⟩] =
      .ok [(("i1", "o"), [60]), (("i2", "o"), [8001 / 200])] := by
  refine ⟨?_, ?_, ?_⟩
  · rw [show (60 : ℚ) + 8001 / 200 - 100 = 1 / 200 by norm_num,
      abs_of_nonneg (by norm_num)]
    norm_num
  · norm_num +decide [part1_read_investor_table, normalizePcts, part1_normalize_pct,
      invKeys, groupKeys, groupSum]
  · norm_num +decide [part2_load_ownership, part2_scan, part2_parse_pct, alAdd,
      alAppend, lowerS, trimS, trimChars, isSpaceChar]
    rw [if_pos (show |(1 : ℚ) / 200| ≤ 1 / 100 by
      rw [abs_of_nonneg (by norm_num)]; norm_num)]
    rfl

/-- Claim C4 as amended: part-1's `_read_investor_table` requires every
(Owner, Property Name) group of normalized percentages to sum to 100.0
EXACTLY, while part-2's `load_investor_table_ownership_map` requires each
(owner, property) sum to lie within 0.01 of 100.0; both are hard failures
whose error carries a bounded sample of offending groups (25 for part 1, 10
for part 2) naming owner and property; [60, 40] loads in both and [60, 30]
fails in both with an error naming the owner and the property. -/
theorem claim_C4_amended :
    (∀ (rows : List InvRow) (nr : List (String × String × ℚ)),
      part1_read_investor_table rows = .ok nr →
      ∀ k ∈ invKeys nr, groupSum nr k = 100) ∧
    (∀ (rows : List Inv2Row) (m : List ((String × String) × List ℚ)),
      part2_load_ownership rows = .ok m →
      ∀ p ∈ part2_sums rows, |p.2 - 100| ≤ 1 / 100) ∧
    (∀ (rows : List InvRow) (ex : List (String × String × ℚ)),
      part1_read_investor_table rows = .error (.sums ex) → ex.length ≤ 25) ∧
    (∀ (rows : List Inv2Row) (ex : List (String × String × ℚ)),
      part2_load_ownership rows = .error (.sums ex) → ex.length ≤ 10) ∧
    part1_read_investor_table [⟨"O", "P", .num 60⟩, ⟨"O", "P", .num 40⟩] =
      .ok [("O", "P", 60), ("O", "P", 40)] ∧
    part1_read_investor_table [⟨"O", "P", .num 60⟩, ⟨"O", "P", .num 30⟩] =
      .error (.sums [("O", "P", 90)]) ∧
    part2_load_ownership [⟨"I1", "O", "P", .num 60⟩, ⟨"I2", "O", "P", .num 40⟩] =
      .ok [(("i1", "o"), [60]), (("i2", "o"), [40])] ∧
    part2_load_ownership [⟨"I1", "O", "P", .num 60⟩, ⟨"I2", "O", "P", .num 30⟩] =
      .error (.sums [("o", "p", 90)]) := by
  refine ⟨?_, ?_, ?_, ?_, ?_, ?_, ?_, ?_⟩
  · intro rows nr h k hk
    simp only [part1_read_investor_table] at h
    cases hn : normalizePcts rows with
    | error e => rw [hn] at h; exact Except.noConfusion h
    | ok nr0 =>
      rw [hn] at h
      simp only [] at h
      by_cases hr : nr0.any (fun r => decide (r.2.2 ≤ 0 ∨ 100 < r.2.2)) = true
      · rw [if_pos hr] at h; exact Except.noConfusion h
      · rw [if_neg hr] at h
        by_cases hb : (((invKeys nr0).map (fun k => (k.1, k.2, groupSum nr0 k))).filter
            (fun b => decide (b.2.2 ≠ 100))).isEmpty = true
        · rw [if_pos hb] at h
          injection h with h2
          subst h2
          have hall := List.filter_eq_nil_iff.mp (List.isEmpty_iff.mp hb)
          have hmem : (k.1, k.2, groupSum nr0 k) ∈
              (invKeys nr0).map (fun k => (k.1, k.2, groupSum nr0 k)) :=
            List.mem_map_of_mem _ hk
          have h3 := hall _ hmem
          simp only [decide_eq_true_eq] at h3
          exact not_not.mp h3
        · rw [if_neg hb] at h; exact Except.noConfusion h
  · intro rows m h p hp
    simp only [part2_load_ownership] at h
    cases hscan : part2_scan rows [] [] with
    | error e => rw [hscan] at h; exact Except.noConfusion h
    | ok pr =>
      obtain ⟨b0, s0⟩ := pr
      rw [hscan] at h
      simp only [] at h
      by_cases hb : b0.isEmpty = true
      · rw [if_pos hb] at h; exact Except.noConfusion h
      · rw [if_neg hb] at h
        by_cases hbad :
            (s0.filter (fun p => decide (1 / 100 < |p.2 - 100|))).isEmpty = true
        · rw [if_pos hbad] at h
          have hall := List.filter_eq_nil_iff.mp (List.isEmpty_iff.mp hbad)
          simp only [part2_sums, hscan] at hp
          have h3 := hall _ hp
          simp only [decide_eq_true_eq, not_lt] at h3
          exact h3
        · rw [if_neg hbad] at h; exact Except.noConfusion h
  · intro rows ex h
    simp only [part1_read_investor_table] at h
    cases hn : normalizePcts rows with
    | error e =>
      rw [hn] at h
      injection h with h2
      obtain ⟨pe, hpe⟩ := normalizePcts_error_shape rows e hn
      rw [hpe] at h2
      exact absurd h2 (by simp)
    | ok nr0 =>
      rw [hn] at h
      simp only [] at h
      by_cases hr : nr0.any (fun r => decide (r.2.2 ≤ 0 ∨ 100 < r.2.2)) = true
      · rw [if_pos hr] at h
        injection h with h2
        exact absurd h2 (by simp)
      · rw [if_neg hr] at h
        by_cases hb : (((invKeys nr0).map (fun k => (k.1, k.2, groupSum nr0 k))).filter
            (fun b => decide (b.2.2 ≠ 100))).isEmpty = true
        · rw [if_pos hb] at h; exact Except.noConfusion h
        · rw [if_neg hb] at h
          injection h with h2
          injection h2 with h3
          rw [← h3]
          exact le_trans (List.length_take_le _ _) (le_refl 25)
  · intro rows ex h
    simp only [part2_load_ownership] at h
    cases hscan : part2_scan rows [] [] with
    | error e =>
      rw [hscan] at h
      injection h with h2
      rcases part2_scan_error_shape rows [] [] e hscan with ⟨pe, hpe⟩ | hpe
      · rw [hpe] at h2; exact absurd h2 (by simp)
      · rw [hpe] at h2; exact absurd h2 (by simp)
    | ok pr =>
      obtain ⟨b0, s0⟩ := pr
      rw [hscan] at h
      simp only [] at h
      by_cases hb : b0.isEmpty = true
      · rw [if_pos hb] at h
        injection h with h2
        exact absurd h2 (by simp)
      · rw [if_neg hb] at h
        by_cases hbad :
            (s0.filter (fun p => decide (1 / 100 < |p.2 - 100|))).isEmpty = true
        · rw [if_pos hbad] at h; exact Except.noConfusion h
        · rw [if_neg hbad] at h
          injection h with h2
          injection h2 with h3
          rw [← h3, List.length_map]
          exact le_trans (List.length_take_le _ _) (le_refl 10)
  · norm_num +decide [part1_read_investor_table, normalizePcts, part1_normalize_pct,
      invKeys, groupKeys, groupSum]
  · norm_num +decide [part1_read_investor_table, normalizePcts, part1_normalize_pct,
      invKeys, groupKeys, groupSum]
  · norm_num +decide [part2_load_ownership, part2_scan, part2_parse_pct, alAdd,
      alAppend, lowerS, trimS, trimChars, isSpaceChar]
  · norm_num +decide [part2_load_ownership, part2_scan, part2_parse_pct, alAdd,
      alAppend, lowerS, trimS, trimChars, isSpaceChar]

theorem claim_C4_amended_witness :
    groupSum [("O", "P", 60), ("O", "P", 40)] ("O", "P") = 100 := by
  refine claim_C4_amended.1 [⟨"O", "P", .num 60⟩, ⟨"O", "P", .num 40⟩]
    [("O", "P", 60), ("O", "P", 40)] claim_C4_amended.2.2.2.2.1 ("O", "P") ?_
  simp +decide [invKeys, groupKeys]

/-- Counterexample to claim C5: the part-1 and part-2 percent normalizers do
NOT implement one shared rule.  On the string cell `"0.5"`, part-1's
`_normalize_pct` applies the fraction rule to the parsed string and yields
50, while part-2's `_parse_pct_100_format` takes strings as already-percent
and yields 0.5 — so whichever way the claim's single rule is read, one of
the two loaders contradicts it. -/
theorem claim_C5_counterexample :
    part1_normalize_pct (.str "0.5") = .ok 50 ∧
    part2_parse_pct (.str "0.5") = .ok (1 / 2) ∧
    (50 : ℚ) ≠ 1 / 2 := by
  refine ⟨?_, ?_, by norm_num⟩
  · simp +decide [part1_normalize_pct, p1StripPct, trimChars, isSpaceChar,
      parseDecimal?, parseUnsigned?, parseMantissa?, digitsVal, Char.toNat,
      UInt32.size]
    norm_num
  · simp +decide [part2_parse_pct, trimChars, isSpaceChar,
      parseDecimal?, parseUnsigned?, parseMantissa?, digitsVal, Char.toNat,
      UInt32.size]
    norm_num

/-- Claim C5 as amended: part-1's `_normalize_pct` applies the
(0,1]-fraction-times-100 rule to numeric cells AND to parsed string cells
(after stripping one trailing `%`), while part-2's `_parse_pct_100_format`
applies a [0,1]-fraction-times-100 rule to numeric cells only and takes
string cells (stripped of every `%`) as already-percent; in both loaders an
unparsable cell is a hard error and a normalized result outside (0,100] is a
hard error. -/
theorem claim_C5_amended :
    (∀ x : ℚ, part1_normalize_pct (.num x) =
      .ok (if 0 < x ∧ x ≤ 1 then x * 100 else x)) ∧
    (∀ x : ℚ, part2_parse_pct (.num x) =
      .ok (if 0 ≤ x ∧ x ≤ 1 then x * 100 else x)) ∧
    (∀ (s : String) (x : ℚ), parseDecimal? (p1StripPct (trimChars s.data)) = some x →
      part1_normalize_pct (.str s) = .ok (if 0 < x ∧ x ≤ 1 then x * 100 else x)) ∧
    (∀ (s : String) (x : ℚ), (trimChars s.data).isEmpty = false →
      parseDecimal? (trimChars ((trimChars s.data).filter (fun c => c ≠ '%'))) =
        some x →
      part2_parse_pct (.str s) = .ok x) ∧
    (∀ s : String, parseDecimal? (p1StripPct (trimChars s.data)) = none →
      part1_normalize_pct (.str s) = .error .unparsable) ∧
    (∀ (rows : List InvRow) (nr : List (String × String × ℚ)),
      part1_read_investor_table rows = .ok nr →
      ∀ r ∈ nr, 0 < r.2.2 ∧ r.2.2 ≤ 100) ∧
    (∀ (rows : List InvRow) (nr : List (String × String × ℚ)),
      normalizePcts rows = .ok nr → (∃ r ∈ nr, r.2.2 ≤ 0 ∨ 100 < r.2.2) →
      part1_read_investor_table rows = .error .range) ∧
    (∀ (r : Inv2Row) (t : List Inv2Row) (b : List ((String × String) × List ℚ))
      (sums : List ((String × String) × ℚ)) (x : ℚ),
      part2_parse_pct r.pct_cell = .ok x → (x ≤ 0 ∨ 100 < x) →
      part2_scan (r :: t) b sums = .error .range) := by
  refine ⟨fun x => rfl, fun x => rfl, ?_, ?_, ?_, ?_, ?_, ?_⟩
  · intro s x hx
    simp only [part1_normalize_pct, hx]
  · intro s x hne hx
    simp only [part2_parse_pct, hx]
    rw [if_neg (by simp [hne])]
  · intro s hx
    simp only [part1_normalize_pct, hx]
  · intro rows nr h r hr
    simp only [part1_read_investor_table] at h
    cases hn : normalizePcts rows with
    | error e => rw [hn] at h; exact Except.noConfusion h
    | ok nr0 =>
      rw [hn] at h
      simp only [] at h
      by_cases hrange : nr0.any (fun r => decide (r.2.2 ≤ 0 ∨ 100 < r.2.2)) = true
      · rw [if_pos hrange] at h; exact Except.noConfusion h
      · rw [if_neg hrange] at h
        by_cases hb : (((invKeys nr0).map (fun k => (k.1, k.2, groupSum nr0 k))).filter
            (fun b => decide (b.2.2 ≠ 100))).isEmpty = true
        · rw [if_pos hb] at h
          injection h with h2
          subst h2
          rw [List.any_eq_true] at hrange
          push_neg at hrange
          have h3 := hrange r hr
          simpa using h3
        · rw [if_neg hb] at h; exact Except.noConfusion h
  · intro rows nr hn hbadrow
    simp only [part1_read_investor_table, hn]
    rw [if_pos ?_]
    rw [List.any_eq_true]
    obtain ⟨r, hr, hout⟩ := hbadrow
    exact ⟨r, hr, by simp [hout]⟩
  · intro r t b sums x hx hr
    simp only [part2_scan, hx]
    rw [if_pos hr]

theorem claim_C5_amended_witness :
    part1_normalize_pct (.str "0.25") = .ok 25 ∧
    part2_parse_pct (.str "12%") = .ok 12 ∧
    part2_scan [⟨"I", "O", "P", .num 200⟩] [] [] = .error .range := by
  refine ⟨?_, ?_, ?_⟩
  · have h := claim_C5_amended.2.2.1 "0.25" (1 / 4) (by
      simp +decide [p1StripPct, trimChars, isSpaceChar, parseDecimal?,
        parseUnsigned?, parseMantissa?, digitsVal, Char.toNat, UInt32.size]
      norm_num)
    rw [h]
    norm_num
  · exact claim_C5_amended.2.2.2.1 "12%" 12 (by decide) (by
      simp +decide [trimChars, isSpaceChar, parseDecimal?,
        parseUnsigned?, parseMantissa?, digitsVal, Char.toNat, UInt32.size])
  · exact claim_C5_amended.2.2.2.2.2.2.2 ⟨"I", "O", "P", .num 200⟩ [] [] [] 200
      (by norm_num [part2_parse_pct]) (by norm_num)

/-- Claim C6: in `build_monthly_perf_totals`, a category group whose
mapping-type is Revenue or Expense (case-insensitive) contributes the
NEGATED summed raw aggregate value to the displayed category total, and any
other mapping-type contributes the value unflipped; in particular the sample
row with mapping type "Revenue" and raw value −500 displays as Rent = +500. -/
theorem claim_C6_perf_sign_flip :
    (∀ (rs : List ((Option String × Option String) × ℚ))
      (r : (Option String × Option String) × ℚ) (c : String),
      perfCatTotals (rs ++ [r]) c =
        perfCatTotals rs c +
          (if c = trimS (r.1.1.getD "") ∧ wantedCats.contains c = true then
            (if flipMT r.1.2 then -r.2 else r.2)
          else 0)) ∧
    (build_monthly_perf_totals "I" none none [wPerfRow]).rent = 500 := by
  constructor
  · intro rs r c
    rw [perfCatTotals, perfCatTotals, List.foldl_append, List.foldl_cons,
      List.foldl_nil]
    by_cases hw : wantedCats.contains (trimS (r.1.1.getD "")) = true
    · by_cases hc : c = trimS (r.1.1.getD "")
      · simp only [stepPerf, if_pos hw, hc, if_pos rfl]
        rw [if_pos (And.intro trivial hw)]
      · simp only [stepPerf, if_pos hw, if_neg hc]
        rw [if_neg (fun hand => hc hand.1), add_zero]
    · simp only [stepPerf, if_neg hw]
      by_cases hc : c = trimS (r.1.1.getD "")
      · rw [if_neg (fun hand => hw (hc ▸ hand.2)), add_zero]
      · rw [if_neg (fun hand => hc hand.1), add_zero]
  · simp +decide [build_monthly_perf_totals, perfGroups, perfFilter, inTimeframe,
      timeframeTokens, wantedCats, groupKeys, groupRows, matchOptFilter,
      perfCatTotals, stepPerf, flipMT, normMT, lowerS, trimS, trimChars,
      isSpaceChar, wPerfRow, Char.toLower]

theorem find?_map_setval_self (m : List (String × ℚ)) (k : String) (v : ℚ) :
    (m.map (fun p => if p.1 = k then (p.1, v) else p)).find?
        (fun q => decide (q.1 = k)) =
      (m.find? (fun q => decide (q.1 = k))).map (fun q => (q.1, v)) := by
  induction m with
  | nil => rfl
  | cons p t ih =>
    by_cases hp : p.1 = k
    · simp only [List.map_cons, if_pos hp]
      rw [List.find?_cons_of_pos _ (by simp [hp]),
        List.find?_cons_of_pos _ (by simp [hp])]
      rfl
    · simp only [List.map_cons, if_neg hp]
      rw [List.find?_cons_of_neg _ (by simp [hp]),
        List.find?_cons_of_neg _ (by simp [hp]), ih]

theorem find?_map_setval_ne (m : List (String × ℚ)) (k c : String) (v : ℚ)
    (hck : c ≠ k) :
    (m.map (fun p => if p.1 = k then (p.1, v) else p)).find?
        (fun q => decide (q.1 = c)) =
      m.find? (fun q => decide (q.1 = c)) := by
  induction m with
  | nil => rfl
  | cons p t ih =>
    by_cases hp : p.1 = k
    · have hpc : ¬p.1 = c := fun h => hck ((h ▸ hp : c = k))
      simp only [List.map_cons, if_pos hp]
      rw [List.find?_cons_of_neg _ (by simp [hpc]),
        List.find?_cons_of_neg _ (by simp [hpc]), ih]
    · simp only [List.map_cons, if_neg hp]
      by_cases hpc : p.1 = c
      · rw [List.find?_cons_of_pos _ (by simp [hpc]),
          List.find?_cons_of_pos _ (by simp [hpc])]
      · rw [List.find?_cons_of_neg _ (by simp [hpc]),
          List.find?_cons_of_neg _ (by simp [hpc]), ih]

theorem alGet_alSet_self (m : List (String × ℚ)) (k : String) (v d : ℚ) :
    alGet (alSet m k v) k d = v := by
  rw [alSet]
  by_cases hf : (m.find? (fun p => decide (p.1 = k))).isSome
  · rw [if_pos hf, alGet, find?_map_setval_self]
    obtain ⟨q, hq⟩ := Option.isSome_iff_exists.mp hf
    rw [hq]
    rfl
  · rw [if_neg hf, alGet, List.find?_append,
      Option.not_isSome_iff_eq_none.mp hf]
    simp [List.find?]

theorem alGet_alSet_ne (m : List (String × ℚ)) (k c : String) (v d : ℚ)
    (hck : c ≠ k) : alGet (alSet m k v) c d = alGet m c d := by
  rw [alSet]
  by_cases hf : (m.find? (fun p => decide (p.1 = k))).isSome
  · rw [if_pos hf, alGet, find?_map_setval_ne m k c v hck, alGet]
  · rw [if_neg hf, alGet, List.find?_append]
    have h2 : ([(k, v)].find? (fun q => decide (q.1 = c))) = none := by
      simp [List.find?, Ne.symm hck]
    rw [h2, Option.or_none, alGet]

/-- Claim C7: in `build_monthly_cash_totals`, a group with cash-type-mapping
"Both" and categorization "Mortgage Principal" is re-routed by the sign of
its net (display-convention) value `v_raw = -SUM(cash_value)`: positive net
goes to the "Mortgage Loan" inflow (and the inflow total), negative net
stays "Mortgage Principal" on the outflow side; every other group feeds the
inflow or outflow total strictly according to its Inflow/Outflow label, and
a group with any other mapping label changes neither total nor any displayed
category value. -/
theorem claim_C7_cash_routing (s : CashState)
    (row : (Option String × Option String) × ℚ) :
    (lowerS (trimS (row.1.2.getD "")) = "both" ∧
        trimS (row.1.1.getD "") = "Mortgage Principal" →
      (0 < -row.2 →
        (stepCash s row).inflow = s.inflow + -row.2 ∧
        (stepCash s row).outflow = s.outflow ∧
        alGet (stepCash s row).byCat "Mortgage Loan" 0 =
          alGet s.byCat "Mortgage Loan" 0 + -row.2) ∧
      (-row.2 < 0 →
        (stepCash s row).outflow = s.outflow + -row.2 ∧
        (stepCash s row).inflow = s.inflow ∧
        alGet (stepCash s row).byCat "Mortgage Principal" 0 =
          alGet s.byCat "Mortgage Principal" 0 + -row.2)) ∧
    (¬(lowerS (trimS (row.1.2.getD "")) = "both" ∧
        trimS (row.1.1.getD "") = "Mortgage Principal") →
      (stepCash s row).inflow = s.inflow +
        (if lowerS (trimS (row.1.2.getD "")) = "inflow" then |row.2| else 0) ∧
      (stepCash s row).outflow = s.outflow -
        (if lowerS (trimS (row.1.2.getD "")) = "outflow" then |row.2| else 0)) ∧
    (¬(lowerS (trimS (row.1.2.getD "")) = "both" ∧
        trimS (row.1.1.getD "") = "Mortgage Principal") →
      lowerS (trimS (row.1.2.getD "")) ≠ "inflow" →
      lowerS (trimS (row.1.2.getD "")) ≠ "outflow" →
      (stepCash s row).inflow = s.inflow ∧
      (stepCash s row).outflow = s.outflow ∧
      ∀ c, alGet (stepCash s row).byCat c 0 = alGet s.byCat c 0) := by
  refine ⟨fun hcond => ⟨fun hpos => ⟨?_, ?_, ?_⟩, fun hneg => ⟨?_, ?_, ?_⟩⟩,
    fun hncond => ⟨?_, ?_⟩, fun hncond hnin hnout => ⟨?_, ?_, fun c => ?_⟩⟩
  · simp only [stepCash, if_pos hcond, if_pos hpos]
    rw [abs_of_pos hpos]
  · simp only [stepCash, if_pos hcond, if_pos hpos]
  · simp only [stepCash, if_pos hcond, if_pos hpos]
    rw [if_neg (show ("Mortgage Loan" : String) ≠ "" by decide),
      alGet_alSet_self, abs_of_pos hpos]
  · have hnpos : ¬0 < -row.2 := by linarith
    simp only [stepCash, if_pos hcond, if_neg hnpos, if_pos hneg]
    rw [abs_of_neg hneg]
    ring
  · have hnpos : ¬0 < -row.2 := by linarith
    simp only [stepCash, if_pos hcond, if_neg hnpos, if_pos hneg]
  · have hnpos : ¬0 < -row.2 := by linarith
    simp only [stepCash, if_pos hcond, if_neg hnpos, if_pos hneg]
    rw [hcond.2, if_neg (show ("Mortgage Principal" : String) ≠ "" by decide),
      alGet_alSet_self, abs_of_neg hneg]
    ring
  · by_cases hin : lowerS (trimS (row.1.2.getD "")) = "inflow"
    · simp only [stepCash, if_neg hncond, if_pos hin]
      rw [abs_neg]
    · by_cases hout : lowerS (trimS (row.1.2.getD "")) = "outflow"
      · simp only [stepCash, if_neg hncond, if_neg hin, if_pos hout]
        rw [add_zero]
      · simp only [stepCash, if_neg hncond, if_neg hin, if_neg hout]
        rw [add_zero]
  · by_cases hin : lowerS (trimS (row.1.2.getD "")) = "inflow"
    · simp only [stepCash, if_neg hncond, if_pos hin]
      rw [if_neg (fun h =>
        (show ("inflow" : String) ≠ "outflow" by decide) (hin.symm.trans h)),
        sub_zero]
    · by_cases hout : lowerS (trimS (row.1.2.getD "")) = "outflow"
      · simp only [stepCash, if_neg hncond, if_neg hin, if_pos hout]
        rw [abs_neg]
        ring
      · simp only [stepCash, if_neg hncond, if_neg hin, if_neg hout]
        rw [sub_zero]
  · simp only [stepCash, if_neg hncond, if_neg hnin, if_neg hnout]
  · simp only [stepCash, if_neg hncond, if_neg hnin, if_neg hnout]
  · simp only [stepCash, if_neg hncond, if_neg hnin, if_neg hnout]
    by_cases hk : trimS (row.1.1.getD "") = ""
    · rw [if_pos hk]
    · rw [if_neg hk]
      by_cases hc : c = trimS (row.1.1.getD "")
      · rw [hc, alGet_alSet_self, add_zero]
      · rw [alGet_alSet_ne _ _ _ _ _ hc]

theorem claim_C7_cash_routing_witness :
    (stepCash ⟨[], 0, 0⟩ ((some "Mortgage Principal", some "Both"), -7)).inflow = 7 ∧
    (stepCash ⟨[], 0, 0⟩ ((some "Mortgage Principal", some "Both"), -7)).outflow = 0 ∧
    alGet (stepCash ⟨[], 0, 0⟩
      ((some "Mortgage Principal", some "Both"), -7)).byCat "Mortgage Loan" 0 = 7 := by
  have h := (claim_C7_cash_routing ⟨[], 0, 0⟩
    ((some "Mortgage Principal", some "Both"), -7)).1 ⟨rfl, rfl⟩
  obtain ⟨h1, h2, h3⟩ := h.1 (by norm_num)
  refine ⟨h1.trans (by norm_num), h2.trans rfl, h3.trans ?_⟩
  rw [show alGet ([] : List (String × ℚ)) "Mortgage Loan" 0 = 0 from rfl]
  norm_num

theorem foldl_min_le_init (t : List ℚ) : ∀ h : ℚ, t.foldl min h ≤ h := by
  induction t with
  | nil => intro h; exact le_refl h
  | cons a t ih =>
    intro h
    exact le_trans (ih (min h a)) (min_le_left h a)

theorem foldl_min_le_mem (t : List ℚ) : ∀ (h p : ℚ), p ∈ t → t.foldl min h ≤ p := by
  induction t with
  | nil => intro h p hp; cases hp
  | cons a t ih =>
    intro h p hp
    rcases List.mem_cons.mp hp with rfl | hp2
    · exact le_trans (foldl_min_le_init t (min h p)) (min_le_right h p)
    · exact ih (min h a) p hp2

theorem foldl_min_mem (t : List ℚ) : ∀ h : ℚ, t.foldl min h = h ∨ t.foldl min h ∈ t := by
  induction t with
  | nil => intro h; exact Or.inl rfl
  | cons a t ih =>
    intro h
    rcases ih (min h a) with heq | hmem
    · rcases min_choice h a with hc | hc
      · exact Or.inl (heq.trans hc)
      · exact Or.inr (List.mem_cons.mpr (Or.inl (heq.trans hc)))
    · exact Or.inr (List.mem_cons.mpr (Or.inr hmem))

/-- Claim C8: `apply_ownership_amount` returns the figure unchanged under the
global force-100 override, when the context's ownership percentage is at
least 100, or when the trimmed key is a configured scaling exception;
otherwise it multiplies by the ownership factor (percent/100 as set in
`main`).  The per-run percentage is 100 when every per-property percentage
is at least 100 and the minimum of them otherwise.  With pct 50 and factor
1/2, the figure 1000 scales to 500, or stays 1000 under the override. -/
theorem claim_C8_ownership_scaling :
    (∀ (cfg : Part2Config) (ctx : UpdateContext) (x : ℚ) (key : String),
      (cfg.ownership_force_100 = true → apply_ownership_amount cfg ctx x key = x) ∧
      (cfg.ownership_force_100 = false → 100 ≤ ctx.ownership_pct →
        apply_ownership_amount cfg ctx x key = x) ∧
      (cfg.ownership_force_100 = false → ctx.ownership_pct < 100 →
        trimS key ≠ "" → trimS key ∈ cfg.ownership_scaling_exceptions →
        apply_ownership_amount cfg ctx x key = x) ∧
      (cfg.ownership_force_100 = false → ctx.ownership_pct < 100 →
        ¬(trimS key ≠ "" ∧ trimS key ∈ cfg.ownership_scaling_exceptions) →
        apply_ownership_amount cfg ctx x key = x * ctx.ownership_factor)) ∧
    (∀ pcts : List ℚ, pcts ≠ [] →
      ((∀ p ∈ pcts, 100 ≤ p) → compute_ownership_pct pcts = 100) ∧
      (¬(∀ p ∈ pcts, 100 ≤ p) →
        compute_ownership_pct pcts = minList pcts ∧
        minList pcts ∈ pcts ∧ ∀ p ∈ pcts, minList pcts ≤ p)) ∧
    apply_ownership_amount ⟨false, []⟩ ⟨"I", none, 50, 1 / 2⟩ 1000 "Figure" = 500 ∧
    apply_ownership_amount ⟨true, []⟩ ⟨"I", none, 50, 1 / 2⟩ 1000 "Figure" = 1000 := by
  refine ⟨?_, ?_, ?_, ?_⟩
  · intro cfg ctx x key
    refine ⟨?_, ?_, ?_, ?_⟩
    · intro hf
      rw [apply_ownership_amount, if_pos hf]
    · intro hf hp
      rw [apply_ownership_amount, if_neg (by rw [hf]; exact Bool.false_ne_true),
        if_pos hp]
    · intro hf hp hk hx
      rw [apply_ownership_amount, if_neg (by rw [hf]; exact Bool.false_ne_true),
        if_neg (not_le.mpr hp), if_pos ⟨hk, hx⟩]
    · intro hf hp hnx
      rw [apply_ownership_amount, if_neg (by rw [hf]; exact Bool.false_ne_true),
        if_neg (not_le.mpr hp), if_neg hnx]
  · intro pcts hne
    refine ⟨?_, ?_⟩
    · intro hall
      rw [compute_ownership_pct, if_pos]
      rw [List.all_eq_true]
      intro p hp
      exact decide_eq_true (hall p hp)
    · intro hnall
      have hcond : ¬pcts.all (fun x => decide (100 ≤ x)) = true := by
        rw [List.all_eq_true]
        intro h2
        exact hnall (fun p hp => of_decide_eq_true (h2 p hp))
      refine ⟨by rw [compute_ownership_pct, if_neg hcond], ?_, ?_⟩
      · match pcts, hne with
        | h :: t, _ =>
          rcases foldl_min_mem t h with heq | hmem
          · exact List.mem_cons.mpr (Or.inl heq)
          · exact List.mem_cons.mpr (Or.inr hmem)
      · match pcts, hne with
        | h :: t, _ =>
          intro p hp
          rcases List.mem_cons.mp hp with rfl | hp2
          · exact foldl_min_le_init t p
          · exact foldl_min_le_mem t h p hp2
  · show (if (100 : ℚ) ≤ 50 then (1000 : ℚ)
      else if trimS "Figure" ≠ "" ∧ trimS "Figure" ∈ ([] : List String) then 1000
      else 1000 * (1 / 2)) = 500
    rw [if_neg (by norm_num), if_neg (by simp)]
    norm_num
  · rfl

theorem claim_C8_ownership_scaling_witness :
    compute_ownership_pct [100, 50] = 50 ∧
    apply_ownership_amount ⟨false, ["Total Revenue"]⟩ ⟨"I", none, 50, 1 / 2⟩
      1000 "Total Revenue" = 1000 := by
  constructor
  · have h := (claim_C8_ownership_scaling.2.1 [100, 50] (by decide)).2
      (fun hall => absurd (hall 50 (by simp)) (by norm_num))
    rw [h.1]
    show min 100 50 = 50
    norm_num
  · exact (claim_C8_ownership_scaling.1 ⟨false, ["Total Revenue"]⟩
      ⟨"I", none, 50, 1 / 2⟩ 1000 "Total Revenue").2.2.1 rfl (by norm_num)
      (by decide) (by decide)

/-- Claim C10: `run_part1` omits the required `investor_table_df` and
`statement_thru_date` arguments of `build_aggregate_table`, so the
aggregation call raises `TypeError`; ingestion and enrichment side effects
have already occurred, and the aggregation stage never runs through this
entry point. -/
theorem claim_C10_run_part1_type_error :
    missingArgs build_aggregate_table_params run_part1_agg_call_args =
      ["investor_table_df", "statement_thru_date"] ∧
    run_part1.2 = .error "TypeError" ∧
    Part1Step.ingest ∈ run_part1.1 ∧
    Part1Step.enrich ∈ run_part1.1 ∧
    Part1Step.aggregate ∉ run_part1.1 :=
  ⟨by decide, rfl, by decide, by decide, by decide⟩

end SP
